import Mathlib

/-!
Shallow embedding of the bf1942-ingest engine (scheduler, querier,
master-list client, data processor) and proofs of the specification
claims about it.

Python dict-like `info` maps are modelled as association lists from
string keys to string values; `dict.get` is first-match lookup.
Machine integers are `Int`; timestamps are `Int`.
-/

namespace BF1942

/-- Parse a non-empty run of decimal digits, accumulating left to
right; any non-digit character fails the parse. -/
def digits_to_nat_aux : List Char → Nat → Option Nat
  | [], acc => some acc
  | c :: cs, acc =>
    if c.isDigit then digits_to_nat_aux cs (acc * 10 + (c.toNat - 48))
    else none

/-- Parse a non-empty digit string to a natural number. -/
def digits_to_nat (cs : List Char) : Option Nat :=
  match cs with
  | [] => none
  | _ => digits_to_nat_aux cs 0

/-- Model of Python `int(s)` on a string: an optional sign followed by
at least one decimal digit; anything else raises (`none`). -/
def str_to_int (s : String) : Option Int :=
  match s.data with
  | '-' :: rest => (digits_to_nat rest).map (fun n => -(n : Int))
  | '+' :: rest => (digits_to_nat rest).map (fun n => (n : Int))
  | l => (digits_to_nat l).map (fun n => (n : Int))

/-- Model of Python `str.lower()`: lower-case each character. -/
def lower (s : String) : String := ⟨s.data.map Char.toLower⟩

/-- A stringly-typed info map, as returned by the GameSpy1 decoder. -/
def Info : Type := List (String × String)

instance : DecidableEq Info := by
  unfold Info; infer_instance

/-- `dict.get(key)` on an info map: first matching key, `none` if absent. -/
def info_get (info : Info) (key : String) : Option String :=
  (info.find? (fun kv => kv.1 = key)).map (·.2)

/-- `dict.get(key, default)` on an info map. -/
def info_getD (info : Info) (key : String) (default : String) : String :=
  (info_get info key).getD default

/-- Embedding of `scheduler._safe_int`: `None` or `""` → default;
otherwise parse the string as an integer, defaulting on parse failure
(Python `int(value)` raising `ValueError`). -/
def safe_int (value : Option String) (default : Int := 0) : Int :=
  match value with
  | none => default
  | some s => if s = "" then default else (str_to_int s).getD default

/-- Embedding of Python's `a or b` over optional strings: the left value
is kept when it is truthy (present and non-empty), otherwise the right
value is used. -/
def py_or (a b : Option String) : Option String :=
  match a with
  | none => b
  | some s => if s = "" then b else some s

/-- Runtime settings (config.py), with the documented defaults. -/
structure Settings where
  MASTER_LIST_POLL_INTERVAL_S : Int := 60
  MASTER_LIST_MAX_BACKOFF_S : Int := 300
  POLL_INTERVAL_ACTIVE_S : Int := 20
  POLL_INTERVAL_EMPTY_S : Int := 180
  POLL_INTERVAL_OFFLINE_S : Int := 900
  OFFLINE_FAILURE_THRESHOLD : Int := 3
  SERVER_QUERY_TIMEOUT_S : ℚ := 4
  WORKER_COUNT : Int := 200
deriving DecidableEq

/-- The default settings object (`config.settings` with no environment
overrides). -/
def default_settings : Settings := {}

/-- The parsed `numplayers` field, as the worker computes it:
`_safe_int(info.get('numplayers'))`. -/
def parsed_numplayers (info : Info) : Int :=
  safe_int (info_get info "numplayers")

/-- The parsed dynamic-delay value, as the worker computes it:
`_safe_int(info.get('roundtimeremain') or info.get('roundtime'))`. -/
def parsed_time_remaining (info : Info) : Int :=
  safe_int (py_or (info_get info "roundtimeremain") (info_get info "roundtime"))

/-- Embedding of the success branch of `Scheduler._worker`'s re-enqueue
delay computation (scheduler.py lines 193-208). -/
def next_delay (s : Settings) (info : Info) : Int :=
  let num_players := parsed_numplayers info
  let time_remaining := parsed_time_remaining info
  if num_players = 0 then s.POLL_INTERVAL_EMPTY_S
  else if 0 < time_remaining ∧ time_remaining < s.POLL_INTERVAL_ACTIVE_S + 5 then
    time_remaining + 3
  else s.POLL_INTERVAL_ACTIVE_S

/-- Spec-side reading of the dynamic-delay value for claim C5: fall back
to `roundtime` exactly when `roundtimeremain` is missing (not merely
falsy). Compared against `parsed_time_remaining`. -/
def spec_time_remaining_missing_only (info : Info) : Int :=
  match info_get info "roundtimeremain" with
  | none => safe_int (info_get info "roundtime")
  | some s => safe_int (some s)

/-! ## Querier (server_querier.py) -/

/-- One probe attempt made by the querier: the address queried and the
timeout passed to the GameSpy1 constructor. -/
structure Attempt where
  ip : String
  port : Int
  timeout : ℚ
deriving DecidableEq

/-- The fixed fallback query port. -/
def standard_query_port : Int := 23000

/-- Embedding of `query_server` (server_querier.py). The environment is
an oracle giving the outcome of one `get_status` attempt against an
address with a timeout (`none` = the attempt raised). Returns the
querier's result together with the list of attempts it made, in order. -/
def query_server {α : Type} (ip : String) (port : Int) (timeout_total : ℚ)
    (oracle : String → Int → ℚ → Option α) : Option α × List Attempt :=
  let timeout := timeout_total / 2
  match oracle ip port timeout with
  | some status => (some status, [⟨ip, port, timeout⟩])
  | none =>
    if port ≠ standard_query_port then
      (oracle ip standard_query_port timeout,
       [⟨ip, port, timeout⟩, ⟨ip, standard_query_port, timeout⟩])
    else
      (none, [⟨ip, port, timeout⟩])

/-! ## Master-list client (master_list.py) -/

/-- A JSON value, as far as the master-list parser inspects one. -/
inductive JVal where
  | str : String → JVal
  | num : Int → JVal
  | arr : List JVal → JVal
  | null : JVal

/-- Python `int(x)` on a JSON value: an integer is itself, a string is
parsed (raising on failure, modelled as `none`), anything else raises. -/
def py_int : JVal → Option Int
  | .str s => str_to_int s
  | .num n => some n
  | _ => none

/-- The per-entry conversion `(item[0], int(item[1]))` applied to the
entries that passed the comprehension's filter; a raised exception
(`none`) aborts the whole comprehension. -/
def conv_entries : List JVal → Option (List (JVal × Int))
  | [] => some []
  | item :: rest =>
    match item with
    | .arr [a, b] =>
      match py_int b with
      | some n => (conv_entries rest).map (fun l => (a, n) :: l)
      | none => none
    | _ => none

/-- The list-comprehension body of `fetch_servers`:
`[(item[0], int(item[1])) for item in data if isinstance(item, list) and len(item) == 2]`.
Entries failing the filter are dropped; an exception raised by `int`
aborts the whole comprehension, which the surrounding `except` turns
into `none`. -/
def parse_master_list (data : List JVal) : Option (List (JVal × Int)) :=
  conv_entries (data.filter (fun item => match item with
    | .arr l => l.length = 2
    | _ => false))

/-- Embedding of `fetch_servers` (master_list.py): `response` is the
HTTP layer's outcome, `none` meaning a transport/HTTP error (which the
`except` clause turns into the fetch-failure result `None`). -/
def fetch_servers (response : Option (List JVal)) : Option (List (JVal × Int)) :=
  match response with
  | none => none
  | some data => parse_master_list data

/-! ## Data processor (data_processor.py): player normalization and the
session diff engine -/

/-- Embedding of `data_processor._coerce_int`, identical to `_safe_int`. -/
def coerce_int (value : Option String) (default : Int := 0) : Int :=
  match value with
  | none => default
  | some s => if s = "" then default else (str_to_int s).getD default

/-- A raw player record as received from the GameSpy1 decoder: each
field may be missing. -/
structure RawPlayer where
  player : Option String
  keyhash : Option String
  score : Option String
  ping : Option String
  team : Option String
  kills : Option String
  deaths : Option String
deriving DecidableEq

/-- A normalized player record, as both stored inside a snapshot's
`normalized_data` and fed to the diff engine. The `name` is optional
because the diff engine also consumes player dicts parsed back from
snapshot JSON, whose `"name"` key it accesses with `.get`. -/
structure Player where
  name : Option String
  keyhash : Option String
  score : Int
  ping : Int
  team : Int
  kills : Int
  deaths : Int
deriving DecidableEq

/-- The player-normalization loop of `process_server_success`
(data_processor.py lines 64-79): drop players whose raw name is in the
`player_name` exclusion set, coerce the integer fields. -/
def normalize_players (players_raw : List RawPlayer) (excluded_player_names : List String) :
    List Player :=
  players_raw.filterMap (fun p =>
    let player_name := p.player.getD "N/A"
    if player_name ∈ excluded_player_names then none
    else some ⟨some player_name, p.keyhash, coerce_int p.score, coerce_int p.ping,
               coerce_int p.team, coerce_int p.kills, coerce_int p.deaths⟩)

/-- A row of the `player_sessions` table. -/
structure Session where
  server_id : Int
  player_name : String
  player_name_norm : String
  join_ts : Int
  keyhash : Option String
  leave_ts : Option Int
deriving DecidableEq

/-- Python-dict insertion on an association list: overwrite in place if
the key exists, append otherwise. -/
def dict_insert (index : List (String × Player)) (k : String) (v : Player) :
    List (String × Player) :=
  if index.any (fun kv => kv.1 = k) then
    index.map (fun kv => if kv.1 = k then (k, v) else kv)
  else index ++ [(k, v)]

/-- Lookup in the association list modelling a Python dict. -/
def dict_get (index : List (String × Player)) (k : String) : Option Player :=
  (index.find? (fun kv => kv.1 = k)).map (·.2)

/-- The keys of an index, in insertion order. -/
def keys (index : List (String × Player)) : List String :=
  index.map (·.1)

/-- One iteration of the `_build_index` loop: skip a record whose name
is missing or empty (`if not raw_name: continue`), otherwise store it
under its lower-cased name. -/
def index_step (index : List (String × Player)) (p : Player) : List (String × Player) :=
  match p.name with
  | none => index
  | some raw => if raw = "" then index else dict_insert index (lower raw) p

/-- Embedding of `_build_index` inside `_update_player_sessions`: map
each player's lower-cased name to the player record, skipping records
whose name is missing or empty; a later record with the same normalized
name overwrites an earlier one. -/
def build_index (players : List Player) : List (String × Player) :=
  players.foldl index_step []

/-- The normalized names the diff engine derives from a player list:
the lower-cased names of the records with a present, non-empty name. -/
def lower_names (players : List Player) : List String :=
  players.filterMap (fun p =>
    match p.name with
    | none => none
    | some raw => if raw = "" then none else some (lower raw))

/-- The joined set `current_names_norm - prev_names_norm`, in the key
order of the current index. -/
def joined_names (prev_players current_players : List Player) : List String :=
  (keys (build_index current_players)).filter
    (fun n => n ∉ keys (build_index prev_players))

/-- The left set `prev_names_norm - current_names_norm`, in the key
order of the previous index. -/
def left_names (prev_players current_players : List Player) : List String :=
  (keys (build_index prev_players)).filter
    (fun n => n ∉ keys (build_index current_players))

/-- The close write of `_update_player_sessions`: set
`leave_ts = timestamp` on every open session of this server whose
normalized name is in `left` (the SQL `UPDATE ... WHERE server_id = $2
AND player_name_norm = ANY($3) AND leave_ts IS NULL`). -/
def close_left (sessions : List Session) (server_id : Int) (left : List String)
    (timestamp : Int) : List Session :=
  sessions.map (fun s =>
    if s.server_id = server_id ∧ s.player_name_norm ∈ left ∧ s.leave_ts = none
    then { s with leave_ts := some timestamp } else s)

/-- The insert write of `_update_player_sessions`: one new open session
row per joined name, carrying the raw current name, the normalized
name, `join_ts = timestamp` and the player's keyhash; names whose index
entry is missing or whose raw name is missing/empty are skipped. -/
def session_row_for (server_id : Int) (current_index : List (String × Player))
    (timestamp : Int) (norm_name : String) : Option Session :=
  match dict_get current_index norm_name with
  | none => none
  | some player =>
    match player.name with
    | none => none
    | some raw_name =>
      if raw_name = "" then none
      else some ⟨server_id, raw_name, norm_name, timestamp, player.keyhash, none⟩

/-- The `new_sessions_data` loop of `_update_player_sessions`: one row
attempt per joined name, in order. -/
def new_session_rows (server_id : Int) (current_index : List (String × Player))
    (joined : List String) (timestamp : Int) : List Session :=
  joined.filterMap (session_row_for server_id current_index timestamp)

/-- Embedding of `_update_player_sessions` (data_processor.py lines
171-213) as a transition on the `player_sessions` table: compute the
joined/left normalized-name sets, close the open sessions of left
names, then append the new rows for joined names. -/
def update_player_sessions (sessions : List Session) (server_id : Int)
    (prev_players current_players : List Player) (timestamp : Int) : List Session :=
  let current_index := build_index current_players
  let joined := joined_names prev_players current_players
  let left := left_names prev_players current_players
  close_left sessions server_id left timestamp ++
    new_session_rows server_id current_index joined timestamp

/-- The number of open sessions (leave_ts NULL) of a given server and
normalized name. -/
def openCount (sessions : List Session) (sid : Int) (n : String) : Nat :=
  sessions.countP (fun s =>
    s.server_id = sid ∧ s.player_name_norm = n ∧ s.leave_ts = none)

/-- Invariant P3/S1: for every (server, normalized name) at most one
open session row exists. -/
def at_most_one_open (sessions : List Session) : Prop :=
  ∀ (sid : Int) (n : String), openCount sessions sid n ≤ 1

/-- A player record with a present, non-empty name — the records the
diff engine's index keeps. -/
def has_name (p : Player) : Bool :=
  match p.name with
  | some raw => raw ≠ ""
  | none => false

/-! ## Data processor: server rows, snapshots and the two ingestion
paths, modelled as pure transitions on a database state -/

/-- The `info` JSONB stored on a server row: the raw info map plus the
embedded normalized player list (`info_to_save`). -/
structure InfoSave where
  info : Info
  players : List Player
deriving DecidableEq

/-- A row of the `servers` table. Optional fields are the columns the
failure-path insert leaves NULL. -/
structure ServerRow where
  id : Int
  ip : String
  port : Int
  hostname : Option String
  status : String
  last_seen : Int
  first_seen : Int
  consecutive_failures : Int
  active_mod : Option String
  gametype : Option String
  info : Option InfoSave
deriving DecidableEq

/-- A snapshot's `data` JSONB: `{"mapname": ..., "players": [...]}`. -/
structure NormData where
  mapname : String
  players : List Player
deriving DecidableEq

/-- A snapshot's `raw` JSONB: `{'info': ..., 'players': ...}` as
received from the probe. -/
structure RawPayload where
  info : Info
  players : List RawPlayer
deriving DecidableEq

/-- A row of the `server_snapshots` table. -/
structure Snapshot where
  server_id : Int
  timestamp : Int
  data : NormData
  raw : RawPayload
deriving DecidableEq

/-- The exclusions cache handed to the data processor: the `server_id`
set holds both canonical strings and parsed pairs (modelled as two
lists). -/
structure Exclusions where
  gametype : List String
  player_name : List String
  server_id_str : List String
  server_id_pair : List (String × Int)
deriving DecidableEq

/-- The server-identifier exclusion test of `process_server_success`:
`server_identifier in excluded_servers or (ip, port) in excluded_servers`. -/
def server_excluded (exclusions : Exclusions) (ip : String) (port : Int) : Prop :=
  (ip ++ ":" ++ toString port) ∈ exclusions.server_id_str ∨
    (ip, port) ∈ exclusions.server_id_pair

instance (exclusions : Exclusions) (ip : String) (port : Int) :
    Decidable (server_excluded exclusions ip port) := by
  unfold server_excluded; infer_instance

/-- The database state the data processor manipulates. `next_id` models
the `servers.id` sequence. -/
structure DB where
  servers : List ServerRow
  snapshots : List Snapshot
  sessions : List Session
  unique_maps : List String
  next_id : Int
deriving DecidableEq

/-- The `ON CONFLICT (ip, port)` row lookup. -/
def find_server (db : DB) (ip : String) (port : Int) : Option ServerRow :=
  db.servers.find? (fun r => r.ip = ip ∧ r.port = port)

/-- Keep the snapshot with the greater timestamp, the later one winning
ties. -/
def pick_latest (best : Option Snapshot) (s : Snapshot) : Option Snapshot :=
  match best with
  | none => some s
  | some b => if s.timestamp ≥ b.timestamp then some s else some b

/-- `SELECT ... FROM server_snapshots WHERE server_id = $1 ORDER BY
timestamp DESC LIMIT 1`: the snapshot of this server with the greatest
timestamp, the later-inserted row winning ties. -/
def latest_snapshot (snapshots : List Snapshot) (server_id : Int) : Option Snapshot :=
  (snapshots.filter (fun s => s.server_id = server_id)).foldl pick_latest none

/-- The success-path server upsert (data_processor.py lines 86-94):
update the existing row (resetting `consecutive_failures` to 0) or
insert a fresh one; returns the new state and the row's id. -/
def upsert_server_success (db : DB) (ip : String) (port : Int) (hostname : String)
    (timestamp : Int) (active_mod gametype : String) (info : InfoSave) : DB × Int :=
  match find_server db ip port with
  | some r =>
    let updated : ServerRow :=
      { r with hostname := some hostname, status := "online", last_seen := timestamp,
               consecutive_failures := 0, active_mod := some active_mod,
               gametype := some gametype, info := some info }
    ({ db with servers := db.servers.map (fun s =>
        if s.ip = ip ∧ s.port = port then updated else s) }, r.id)
  | none =>
    let row : ServerRow :=
      ⟨db.next_id, ip, port, some hostname, "online", timestamp, timestamp, 0,
       some active_mod, some gametype, some info⟩
    ({ db with servers := db.servers ++ [row], next_id := db.next_id + 1 }, db.next_id)

/-- Embedding of `process_server_success` (data_processor.py lines
19-128) as a pure transition of the database state. The timestamp is a
parameter (the source takes the current UTC time). -/
def process_server_success (db : DB) (ip : String) (port : Int) (raw_data : RawPayload)
    (exclusions : Exclusions) (timestamp : Int) : DB :=
  let info := raw_data.info
  let players_raw := raw_data.players
  if server_excluded exclusions ip port then db
  else
    let gametype := info_getD info "gametype" "N/A"
    if gametype ∈ exclusions.gametype then db
    else
      let normalized_players := normalize_players players_raw exclusions.player_name
      let hostname := info_getD info "hostname" "N/A"
      let mapname := lower (info_getD info "mapname" "N/A")
      let active_mod := info_getD info "active_mods" "N/A"
      let info_to_save : InfoSave := ⟨info, normalized_players⟩
      let step := upsert_server_success db ip port hostname timestamp active_mod
        gametype info_to_save
      let db1 := step.1
      let server_id := step.2
      let db2 :=
        if mapname ≠ "n/a" ∧ mapname ∉ db1.unique_maps then
          { db1 with unique_maps := db1.unique_maps ++ [mapname] }
        else db1
      let previous_snapshot := latest_snapshot db2.snapshots server_id
      let previous_players :=
        match previous_snapshot with
        | some s => s.data.players
        | none => []
      let db3 := { db2 with sessions :=
        (update_player_sessions db2.sessions server_id previous_players
          normalized_players timestamp) }
      let normalized_data : NormData := ⟨mapname, normalized_players⟩
      let raw_payload : RawPayload := ⟨raw_data.info, raw_data.players⟩
      match previous_snapshot with
      | some s =>
        if s.data = normalized_data ∧ s.raw = raw_payload then db3
        else { db3 with snapshots :=
          db3.snapshots ++ [⟨server_id, timestamp, normalized_data, raw_payload⟩] }
      | none =>
        { db3 with snapshots :=
          db3.snapshots ++ [⟨server_id, timestamp, normalized_data, raw_payload⟩] }

/-- The normalized player list the success path computes. -/
def success_normalized_players (raw_data : RawPayload) (exclusions : Exclusions) :
    List Player :=
  normalize_players raw_data.players exclusions.player_name

/-- The `normalized_data` object the success path stores:
`{"mapname": mapname, "players": normalized_players}`. -/
def success_normalized_data (raw_data : RawPayload) (exclusions : Exclusions) : NormData :=
  ⟨lower (info_getD raw_data.info "mapname" "N/A"),
   success_normalized_players raw_data exclusions⟩

/-- The server id the success path obtains from its upsert: the
existing row's id, or the freshly allocated one. -/
def success_server_id (db : DB) (ip : String) (port : Int) : Int :=
  match find_server db ip port with
  | some r => r.id
  | none => db.next_id

/-- The previous players the ingestion paths feed to the diff engine:
the latest snapshot's normalized players, or empty. -/
def prior_players (db : DB) (sid : Int) : List Player :=
  match latest_snapshot db.snapshots sid with
  | some s => s.data.players
  | none => []

/-- The snapshot-deduplication test: the latest prior snapshot exists
and both its normalized data and its raw payload equal the new ones. -/
def snapshot_unchanged (db : DB) (sid : Int) (nd : NormData) (rp : RawPayload) : Bool :=
  match latest_snapshot db.snapshots sid with
  | some s => s.data = nd ∧ s.raw = rp
  | none => false

/-- The failure-path server upsert (data_processor.py lines 135-152):
insert a fresh offline row with one failure, or bump the failure count
and set the status to offline once the threshold is reached; returns
the new state and the row as returned by `RETURNING`. -/
def upsert_server_failure (db : DB) (ip : String) (port : Int) (timestamp : Int)
    (threshold : Int) : DB × ServerRow :=
  match find_server db ip port with
  | some r =>
    let updated : ServerRow :=
      { r with last_seen := timestamp,
               consecutive_failures := r.consecutive_failures + 1,
               status := if r.consecutive_failures + 1 ≥ threshold then "offline"
                         else r.status }
    ({ db with servers := db.servers.map (fun s =>
        if s.ip = ip ∧ s.port = port then updated else s) }, updated)
  | none =>
    let row : ServerRow :=
      ⟨db.next_id, ip, port, none, "offline", timestamp, timestamp, 1, none, none, none⟩
    ({ db with servers := db.servers ++ [row], next_id := db.next_id + 1 }, row)

/-- Embedding of `process_server_failure` (data_processor.py lines
131-168): upsert the server row, and when the resulting failure count
reaches the threshold, run the diff engine with an empty current player
list against the last snapshot's players. -/
def process_server_failure (db : DB) (ip : String) (port : Int) (timestamp : Int)
    (threshold : Int) : DB :=
  let step := upsert_server_failure db ip port timestamp threshold
  let db1 := step.1
  let row := step.2
  if row.consecutive_failures ≥ threshold then
    let previous_players :=
      match latest_snapshot db1.snapshots row.id with
      | some s => s.data.players
      | none => []
    { db1 with sessions :=
      update_player_sessions db1.sessions row.id previous_players [] timestamp }
  else db1

/-! ## Supporting lemmas about the diff-engine index -/

theorem keys_map_update (index : List (String × Player)) (k : String) (v : Player) :
    keys (index.map (fun kv => if kv.1 = k then (k, v) else kv)) = keys index := by
  unfold keys
  rw [List.map_map]
  refine List.map_congr_left ?_
  intro kv _
  by_cases h : kv.1 = k
  · simp [h]
  · simp [h]

theorem mem_keys_dict_insert (index : List (String × Player)) (k : String) (v : Player)
    (k' : String) : k' ∈ keys (dict_insert index k v) ↔ k' ∈ keys index ∨ k' = k := by
  unfold dict_insert
  by_cases h : index.any (fun kv => kv.1 = k)
  · rw [if_pos h, keys_map_update]
    rcases List.any_eq_true.mp h with ⟨kv, hkv, he⟩
    simp only [decide_eq_true_eq] at he
    constructor
    · exact Or.inl
    · rintro (hm | rfl)
      · exact hm
      · exact List.mem_map.mpr ⟨kv, hkv, he⟩
  · rw [if_neg h]
    simp [keys]
  -- loose ends are closed by the simp above

theorem nodup_keys_dict_insert (index : List (String × Player)) (k : String) (v : Player)
    (h : (keys index).Nodup) : (keys (dict_insert index k v)).Nodup := by
  unfold dict_insert
  by_cases ha : index.any (fun kv => kv.1 = k)
  · rw [if_pos ha, keys_map_update]
    exact h
  · rw [if_neg ha]
    have hk : k ∉ keys index := by
      intro hm
      rcases List.mem_map.mp hm with ⟨kv, hkv, he⟩
      exact absurd (List.any_eq_true.mpr ⟨kv, hkv, by simp [he]⟩) ha
    have : keys (index ++ [(k, v)]) = keys index ++ [k] := by simp [keys]
    rw [this]
    simp only [List.nodup_append, List.nodup_cons, List.not_mem_nil, not_false_iff,
      List.nodup_nil, and_true, true_and]
    refine ⟨h, ?_⟩
    intro a ha' hb
    simp only [List.mem_singleton] at hb
    exact hk (hb ▸ ha')

theorem dict_insert_forall {Q : String × Player → Prop} (index : List (String × Player))
    (k : String) (v : Player) (hidx : ∀ kv ∈ index, Q kv) (hkv : Q (k, v)) :
    ∀ kv ∈ dict_insert index k v, Q kv := by
  unfold dict_insert
  by_cases ha : index.any (fun kv => kv.1 = k)
  · rw [if_pos ha]
    intro kv hm
    rcases List.mem_map.mp hm with ⟨kv0, h0, he⟩
    by_cases hk : kv0.1 = k
    · rw [if_pos hk] at he
      exact he ▸ hkv
    · rw [if_neg hk] at he
      exact he ▸ hidx kv0 h0
  · rw [if_neg ha]
    intro kv hm
    rcases List.mem_append.mp hm with hm | hm
    · exact hidx kv hm
    · simp only [List.mem_singleton] at hm
      exact hm ▸ hkv

theorem index_step_none (acc : List (String × Player)) (p : Player)
    (h : p.name = none) : index_step acc p = acc := by
  unfold index_step
  rw [h]

theorem index_step_some (acc : List (String × Player)) (p : Player) (raw : String)
    (h : p.name = some raw) :
    index_step acc p = if raw = "" then acc else dict_insert acc (lower raw) p := by
  unfold index_step
  rw [h]

theorem lower_names_cons_none (p : Player) (rest : List Player) (h : p.name = none) :
    lower_names (p :: rest) = lower_names rest := by
  unfold lower_names
  rw [List.filterMap_cons]
  simp [h]

theorem lower_names_cons_empty (p : Player) (rest : List Player) (h : p.name = some "") :
    lower_names (p :: rest) = lower_names rest := by
  unfold lower_names
  rw [List.filterMap_cons]
  simp [h]

theorem lower_names_cons_some (p : Player) (rest : List Player) (raw : String)
    (h : p.name = some raw) (hr : raw ≠ "") :
    lower_names (p :: rest) = lower raw :: lower_names rest := by
  unfold lower_names
  rw [List.filterMap_cons]
  simp [h, hr]

theorem mem_keys_foldl_index (players : List Player) :
    ∀ (acc : List (String × Player)) (k : String),
      k ∈ keys (players.foldl index_step acc) ↔ k ∈ keys acc ∨ k ∈ lower_names players := by
  induction players with
  | nil =>
    intro acc k
    simp [lower_names]
  | cons p rest ih =>
    intro acc k
    rw [List.foldl_cons, ih]
    cases hp : p.name with
    | none => rw [index_step_none acc p hp, lower_names_cons_none p rest hp]
    | some raw =>
      by_cases hr : raw = ""
      · subst hr
        rw [index_step_some acc p "" hp, if_pos rfl, lower_names_cons_empty p rest hp]
      · rw [index_step_some acc p raw hp, if_neg hr,
          lower_names_cons_some p rest raw hp hr, mem_keys_dict_insert]
        simp only [List.mem_cons]
        tauto

theorem nodup_keys_foldl_index (players : List Player) :
    ∀ acc : List (String × Player), (keys acc).Nodup →
      (keys (players.foldl index_step acc)).Nodup := by
  induction players with
  | nil => intro acc h; exact h
  | cons p rest ih =>
    intro acc h
    rw [List.foldl_cons]
    refine ih _ ?_
    cases hp : p.name with
    | none => rw [index_step_none acc p hp]; exact h
    | some raw =>
      rw [index_step_some acc p raw hp]
      by_cases hr : raw = ""
      · rw [if_pos hr]; exact h
      · rw [if_neg hr]
        exact nodup_keys_dict_insert _ _ _ h

theorem foldl_index_forall (Q : String × Player → Prop) (players : List Player) :
    ∀ acc : List (String × Player), (∀ kv ∈ acc, Q kv) →
      (∀ p ∈ players, ∀ raw, p.name = some raw → raw ≠ "" → Q (lower raw, p)) →
      ∀ kv ∈ players.foldl index_step acc, Q kv := by
  induction players with
  | nil =>
    intro acc hacc _ kv hm
    exact hacc kv hm
  | cons p rest ih =>
    intro acc hacc hplayers kv hm
    rw [List.foldl_cons] at hm
    refine ih _ ?_ (fun q hq => hplayers q (by simp [hq])) kv hm
    cases hp : p.name with
    | none => rw [index_step_none acc p hp]; exact hacc
    | some raw =>
      rw [index_step_some acc p raw hp]
      by_cases hr : raw = ""
      · rw [if_pos hr]; exact hacc
      · rw [if_neg hr]
        exact dict_insert_forall _ _ _ hacc
          (hplayers p (by simp) raw hp hr)

theorem mem_keys_build_index (players : List Player) (k : String) :
    k ∈ keys (build_index players) ↔ k ∈ lower_names players := by
  have h := mem_keys_foldl_index players [] k
  simpa [build_index, keys] using h

theorem nodup_keys_build_index (players : List Player) :
    (keys (build_index players)).Nodup :=
  nodup_keys_foldl_index players [] (by simp [keys])

theorem build_index_wf (players : List Player) :
    ∀ kv ∈ build_index players,
      ∃ raw, kv.2.name = some raw ∧ raw ≠ "" ∧ lower raw = kv.1 :=
  foldl_index_forall _ players [] (by simp)
    (fun _ _ raw h1 h2 => ⟨raw, by simp [h1], h2, rfl⟩)

theorem build_index_values (players : List Player) :
    ∀ kv ∈ build_index players, kv.2 ∈ players :=
  foldl_index_forall (fun kv => kv.2 ∈ players) players [] (by simp)
    (fun p hp _ _ _ => hp)

theorem dict_get_mem {index : List (String × Player)} {k : String} {p : Player}
    (h : dict_get index k = some p) : (k, p) ∈ index := by
  unfold dict_get at h
  cases hf : index.find? (fun kv => kv.1 = k) with
  | none => rw [hf] at h; cases h
  | some kv =>
    rw [hf] at h
    have hm := List.mem_of_find?_eq_some hf
    have hp := List.find?_some hf
    simp only [decide_eq_true_eq] at hp
    have h2 : kv.2 = p := by simpa using h
    rcases kv with ⟨k1, p1⟩
    simp only at hp h2
    rw [← hp, ← h2]
    exact hm

theorem dict_get_isSome_of_mem_keys {index : List (String × Player)} {k : String}
    (h : k ∈ keys index) : ∃ p, dict_get index k = some p := by
  unfold dict_get
  rcases List.mem_map.mp h with ⟨kv, hkv, he⟩
  have hs : (index.find? (fun kv => kv.1 = k)).isSome := by
    rw [List.find?_isSome]
    exact ⟨kv, hkv, by simp [he]⟩
  cases hf : index.find? (fun kv => kv.1 = k) with
  | none => rw [hf] at hs; cases hs
  | some kv2 => exact ⟨kv2.2, by simp [dict_get, hf]⟩

theorem mem_joined_names (prev curr : List Player) (n : String) :
    n ∈ joined_names prev curr ↔ n ∈ lower_names curr ∧ n ∉ lower_names prev := by
  unfold joined_names
  rw [List.mem_filter]
  simp [mem_keys_build_index]

theorem mem_left_names (prev curr : List Player) (n : String) :
    n ∈ left_names prev curr ↔ n ∈ lower_names prev ∧ n ∉ lower_names curr := by
  unfold left_names
  rw [List.mem_filter]
  simp [mem_keys_build_index]

theorem nodup_joined_names (prev curr : List Player) :
    (joined_names prev curr).Nodup :=
  (nodup_keys_build_index curr).filter _

/-! ## Supporting lemmas about open-session counting -/

theorem session_row_for_props {sid : Int} {idx : List (String × Player)} {ts : Int}
    {n : String} {r : Session} (h : session_row_for sid idx ts n = some r) :
    r.server_id = sid ∧ r.player_name_norm = n ∧ r.join_ts = ts ∧ r.leave_ts = none ∧
      r.player_name ≠ "" := by
  unfold session_row_for at h
  split at h
  · exact absurd h (by simp)
  · split at h
    · exact absurd h (by simp)
    · split at h
      · exact absurd h (by simp)
      · rename_i hr
        simp only [Option.some.injEq] at h
        subst h
        exact ⟨rfl, rfl, rfl, rfl, hr⟩

theorem openCount_new_rows_eq_zero (sid : Int) (idx : List (String × Player))
    (joined : List String) (ts : Int) (sid2 : Int) (n : String)
    (h : sid2 ≠ sid ∨ n ∉ joined) :
    openCount (new_session_rows sid idx joined ts) sid2 n = 0 := by
  simp only [openCount, List.countP_eq_zero, decide_eq_true_eq]
  intro r hr hp
  rcases List.mem_filterMap.mp hr with ⟨m, hm, he⟩
  obtain ⟨h1, h2, _, _, _⟩ := session_row_for_props he
  rcases h with h | h
  · exact h (hp.1 ▸ h1 ▸ rfl)
  · rw [hp.2.1] at h2
    exact h (h2 ▸ hm)

theorem openCount_new_rows_le_one (sid : Int) (idx : List (String × Player)) (ts : Int) :
    ∀ joined : List String, joined.Nodup → ∀ (sid2 : Int) (n : String),
      openCount (new_session_rows sid idx joined ts) sid2 n ≤ 1 := by
  intro joined
  induction joined with
  | nil =>
    intro _ sid2 n
    simp [new_session_rows, openCount]
  | cons m rest ih =>
    intro hnd sid2 n
    have hnd2 := List.nodup_cons.mp hnd
    unfold new_session_rows
    rw [List.filterMap_cons]
    cases hm : session_row_for sid idx ts m with
    | none => exact ih hnd2.2 sid2 n
    | some r =>
      simp only [openCount, List.countP_cons]
      by_cases hp : (r.server_id = sid2 ∧ r.player_name_norm = n ∧ r.leave_ts = none)
      · obtain ⟨hr1, hr2, _, _, _⟩ := session_row_for_props hm
        have hz : openCount (new_session_rows sid idx rest ts) sid2 n = 0 := by
          refine openCount_new_rows_eq_zero sid idx rest ts sid2 n (Or.inr ?_)
          rw [← hp.2.1, hr2]
          exact hnd2.1
        simp only [openCount, new_session_rows] at hz
        rw [hz]
        simp [hp]
      · have hle := ih hnd2.2 sid2 n
        simp only [openCount, new_session_rows] at hle
        simpa [hp] using hle

theorem openCount_close_left_le (sessions : List Session) (sid0 : Int)
    (left : List String) (ts : Int) (sid : Int) (n : String) :
    openCount (close_left sessions sid0 left ts) sid n ≤ openCount sessions sid n := by
  unfold close_left openCount
  rw [List.countP_map]
  refine List.countP_mono_left ?_
  intro s _ hp
  simp only [Function.comp, decide_eq_true_eq] at hp
  simp only [decide_eq_true_eq]
  by_cases hc : s.server_id = sid0 ∧ s.player_name_norm ∈ left ∧ s.leave_ts = none
  · rw [if_pos hc] at hp
    simp at hp
  · rw [if_neg hc] at hp
    exact hp

theorem openCount_close_left_zero (sessions : List Session) (sid0 : Int)
    (left : List String) (ts : Int) (n : String) (hn : n ∈ left) :
    openCount (close_left sessions sid0 left ts) sid0 n = 0 := by
  unfold close_left openCount
  rw [List.countP_map, List.countP_eq_zero]
  intro s _
  simp only [Function.comp, decide_eq_true_eq]
  intro hp
  by_cases hc : s.server_id = sid0 ∧ s.player_name_norm ∈ left ∧ s.leave_ts = none
  · rw [if_pos hc] at hp
    simp at hp
  · rw [if_neg hc] at hp
    exact hc ⟨hp.1, hp.2.1 ▸ hn, hp.2.2⟩

theorem close_left_not_open_left (sessions : List Session) (sid0 : Int)
    (left : List String) (ts : Int) :
    ∀ s ∈ close_left sessions sid0 left ts,
      ¬(s.server_id = sid0 ∧ s.player_name_norm ∈ left ∧ s.leave_ts = none) := by
  intro s hs hcon
  rcases List.mem_map.mp hs with ⟨s0, hs0, he⟩
  by_cases hc : s0.server_id = sid0 ∧ s0.player_name_norm ∈ left ∧ s0.leave_ts = none
  · rw [if_pos hc] at he
    rw [← he] at hcon
    simp at hcon
  · rw [if_neg hc] at he
    rw [← he] at hcon
    exact hc hcon

theorem close_left_mem (sessions : List Session) (sid0 : Int) (left : List String)
    (ts : Int) (s : Session) (hs : s ∈ sessions)
    (h : s.server_id = sid0 ∧ s.player_name_norm ∈ left ∧ s.leave_ts = none) :
    { s with leave_ts := some ts } ∈ close_left sessions sid0 left ts := by
  unfold close_left
  refine List.mem_map.mpr ⟨s, hs, ?_⟩
  rw [if_pos h]

theorem index_step_skips_nameless (players : List Player) :
    ∀ acc : List (String × Player),
      (players.filter has_name).foldl index_step acc = players.foldl index_step acc := by
  induction players with
  | nil => intro _; rfl
  | cons p rest ih =>
    intro acc
    by_cases hn : has_name p
    · rw [List.filter_cons_of_pos hn, List.foldl_cons, List.foldl_cons, ih]
    · rw [List.filter_cons_of_neg (by simpa using hn), List.foldl_cons]
      have hstep : index_step acc p = acc := by
        unfold has_name at hn
        cases hp : p.name with
        | none => exact index_step_none acc p hp
        | some raw =>
          rw [hp] at hn
          simp only [ne_eq, decide_not, Bool.not_eq_true', decide_eq_false_iff_not,
            not_not] at hn
          rw [index_step_some acc p raw hp, if_pos hn]
      rw [hstep]
      exact ih acc

theorem build_index_filter_has_name (players : List Player) :
    build_index (players.filter has_name) = build_index players :=
  index_step_skips_nameless players []

theorem lower_ne_empty (s : String) (h : s ≠ "") : lower s ≠ "" := by
  intro hcon
  apply h
  have hdata : s.data.map Char.toLower = ([] : List Char) := by
    have := congrArg String.data hcon
    simpa [lower] using this
  have hnil : s.data = [] := List.map_eq_nil_iff.mp hdata
  cases s
  simp only at hnil
  simp [hnil]

/-! ## Supporting lemmas about the server-row upserts -/

theorem find?_map_update (l : List ServerRow) (ip : String) (port : Int)
    (updated : ServerRow) (hupd : updated.ip = ip ∧ updated.port = port) :
    (l.map (fun s => if s.ip = ip ∧ s.port = port then updated else s)).find?
        (fun r => r.ip = ip ∧ r.port = port) =
      match l.find? (fun r => r.ip = ip ∧ r.port = port) with
      | some _ => some updated
      | none => none := by
  induction l with
  | nil => rfl
  | cons s rest ih =>
    by_cases hc : s.ip = ip ∧ s.port = port
    · rw [List.map_cons, if_pos hc,
        List.find?_cons_of_pos _ (by simpa using hupd),
        List.find?_cons_of_pos _ (by simpa using hc)]
    · rw [List.map_cons, if_neg hc,
        List.find?_cons_of_neg _ (by simpa using hc),
        List.find?_cons_of_neg _ (by simpa using hc)]
      exact ih

theorem find_server_upsert_failure_none (db : DB) (ip : String) (port : Int)
    (ts threshold : Int) (hf : find_server db ip port = none) :
    find_server (upsert_server_failure db ip port ts threshold).1 ip port =
      some ⟨db.next_id, ip, port, none, "offline", ts, ts, 1, none, none, none⟩ := by
  unfold upsert_server_failure
  rw [hf]
  unfold find_server at hf ⊢
  simp only [List.find?_append, hf, Option.none_or]
  rw [List.find?_cons_of_pos _ (by simp)]

theorem find_server_upsert_failure_some (db : DB) (ip : String) (port : Int)
    (ts threshold : Int) (r : ServerRow) (hf : find_server db ip port = some r) :
    find_server (upsert_server_failure db ip port ts threshold).1 ip port =
      some ({ r with
        last_seen := ts,
        consecutive_failures := r.consecutive_failures + 1,
        status := (if r.consecutive_failures + 1 ≥ threshold then "offline" else r.status) }) := by
  have hr : r.ip = ip ∧ r.port = port := by
    have := List.find?_some hf
    simpa using this
  unfold upsert_server_failure
  rw [hf]
  unfold find_server at hf ⊢
  simp only
  rw [find?_map_update _ ip port _ (by simpa using hr), hf]

theorem find_server_upsert_success_none (db : DB) (ip : String) (port : Int)
    (hostname : String) (ts : Int) (am gt : String) (info : InfoSave)
    (hf : find_server db ip port = none) :
    find_server (upsert_server_success db ip port hostname ts am gt info).1 ip port =
      some ⟨db.next_id, ip, port, some hostname, "online", ts, ts, 0,
            some am, some gt, some info⟩ := by
  unfold upsert_server_success
  rw [hf]
  unfold find_server at hf ⊢
  simp only [List.find?_append, hf, Option.none_or]
  rw [List.find?_cons_of_pos _ (by simp)]

theorem find_server_upsert_success_some (db : DB) (ip : String) (port : Int)
    (hostname : String) (ts : Int) (am gt : String) (info : InfoSave) (r : ServerRow)
    (hf : find_server db ip port = some r) :
    find_server (upsert_server_success db ip port hostname ts am gt info).1 ip port =
      some ({ r with
        hostname := some hostname,
        status := "online",
        last_seen := ts,
        consecutive_failures := 0,
        active_mod := some am,
        gametype := some gt,
        info := some info }) := by
  have hr : r.ip = ip ∧ r.port = port := by
    have := List.find?_some hf
    simpa using this
  unfold upsert_server_success
  rw [hf]
  unfold find_server at hf ⊢
  simp only
  rw [find?_map_update _ ip port _ (by simpa using hr), hf]

theorem foldl_pick_latest_mem (l : List Snapshot) :
    ∀ (acc : Option Snapshot) (b : Snapshot), l.foldl pick_latest acc = some b →
      b ∈ l ∨ acc = some b := by
  induction l with
  | nil => intro acc b h; exact Or.inr h
  | cons s rest ih =>
    intro acc b h
    rw [List.foldl_cons] at h
    rcases ih (pick_latest acc s) b h with hm | he
    · exact Or.inl (List.mem_cons_of_mem s hm)
    · cases acc with
      | none =>
        simp only [pick_latest, Option.some.injEq] at he
        subst he
        exact Or.inl (List.mem_cons_self s rest)
      | some a =>
        simp only [pick_latest] at he
        by_cases ht : s.timestamp ≥ a.timestamp
        · rw [if_pos ht] at he
          simp only [Option.some.injEq] at he
          subst he
          exact Or.inl (List.mem_cons_self s rest)
        · rw [if_neg ht] at he
          exact Or.inr he

theorem latest_snapshot_append_one (snaps : List Snapshot) (snap : Snapshot) (sid : Int)
    (hsid : snap.server_id = sid)
    (hle : ∀ s ∈ snaps, s.timestamp ≤ snap.timestamp) :
    latest_snapshot (snaps ++ [snap]) sid = some snap := by
  unfold latest_snapshot
  rw [List.filter_append, List.foldl_append]
  have hfil : List.filter (fun s => s.server_id = sid) [snap] = [snap] := by simp [hsid]
  rw [hfil]
  cases hacc : (List.filter (fun s => s.server_id = sid) snaps).foldl pick_latest none with
  | none => simp [pick_latest]
  | some b =>
    have hb : b ∈ snaps := by
      rcases foldl_pick_latest_mem _ none b hacc with hm | he
      · exact (List.mem_filter.mp hm).1
      · cases he
    simp [pick_latest, hle b hb]

theorem process_success_sessions (db : DB) (ip : String) (port : Int)
    (raw_data : RawPayload) (exclusions : Exclusions) (ts : Int)
    (h1 : ¬ server_excluded exclusions ip port)
    (h2 : info_getD raw_data.info "gametype" "N/A" ∉ exclusions.gametype) :
    (process_server_success db ip port raw_data exclusions ts).sessions =
      update_player_sessions db.sessions (success_server_id db ip port)
        (prior_players db (success_server_id db ip port))
        (success_normalized_players raw_data exclusions) ts := by
  simp only [process_server_success, if_neg h1, if_neg h2, success_normalized_players]
  cases hf : find_server db ip port with
  | some r =>
    simp only [upsert_server_success, hf, success_server_id, prior_players,
      apply_ite DB.sessions, apply_ite DB.snapshots, ite_self]
    cases hsnap : latest_snapshot db.snapshots r.id <;>
      simp only [hsnap, apply_ite DB.sessions, ite_self]
  | none =>
    simp only [upsert_server_success, hf, success_server_id, prior_players,
      apply_ite DB.sessions, apply_ite DB.snapshots, ite_self]
    cases hsnap : latest_snapshot db.snapshots db.next_id <;>
      simp only [hsnap, apply_ite DB.sessions, ite_self]

theorem process_success_snapshots (db : DB) (ip : String) (port : Int)
    (raw_data : RawPayload) (exclusions : Exclusions) (ts : Int)
    (h1 : ¬ server_excluded exclusions ip port)
    (h2 : info_getD raw_data.info "gametype" "N/A" ∉ exclusions.gametype) :
    (process_server_success db ip port raw_data exclusions ts).snapshots =
      (if snapshot_unchanged db (success_server_id db ip port)
          (success_normalized_data raw_data exclusions) raw_data
       then db.snapshots
       else db.snapshots ++ [⟨success_server_id db ip port, ts,
         success_normalized_data raw_data exclusions, raw_data⟩]) := by
  simp only [process_server_success, if_neg h1, if_neg h2, success_normalized_players,
    success_normalized_data]
  rw [show (⟨raw_data.info, raw_data.players⟩ : RawPayload) = raw_data from rfl]
  cases hf : find_server db ip port with
  | some r =>
    simp only [upsert_server_success, hf, success_server_id]
    by_cases hmap : lower (info_getD raw_data.info "mapname" "N/A") ≠ "n/a" ∧
        lower (info_getD raw_data.info "mapname" "N/A") ∉ db.unique_maps
    · rw [if_pos hmap]
      cases hsnap : latest_snapshot db.snapshots r.id with
      | none =>
        simp only [hsnap, snapshot_unchanged]
        simp
      | some s =>
        simp only [hsnap, snapshot_unchanged]
        by_cases hdup : s.data =
            (⟨lower (info_getD raw_data.info "mapname" "N/A"),
              normalize_players raw_data.players exclusions.player_name⟩ : NormData) ∧
            s.raw = raw_data
        · rw [if_pos hdup]
          simp [hdup]
        · rw [if_neg hdup]
          simp [hdup]
    · rw [if_neg hmap]
      cases hsnap : latest_snapshot db.snapshots r.id with
      | none =>
        simp only [hsnap, snapshot_unchanged]
        simp
      | some s =>
        simp only [hsnap, snapshot_unchanged]
        by_cases hdup : s.data =
            (⟨lower (info_getD raw_data.info "mapname" "N/A"),
              normalize_players raw_data.players exclusions.player_name⟩ : NormData) ∧
            s.raw = raw_data
        · rw [if_pos hdup]
          simp [hdup]
        · rw [if_neg hdup]
          simp [hdup]
  | none =>
    simp only [upsert_server_success, hf, success_server_id]
    by_cases hmap : lower (info_getD raw_data.info "mapname" "N/A") ≠ "n/a" ∧
        lower (info_getD raw_data.info "mapname" "N/A") ∉ db.unique_maps
    · rw [if_pos hmap]
      cases hsnap : latest_snapshot db.snapshots db.next_id with
      | none =>
        simp only [hsnap, snapshot_unchanged]
        simp
      | some s =>
        simp only [hsnap, snapshot_unchanged]
        by_cases hdup : s.data =
            (⟨lower (info_getD raw_data.info "mapname" "N/A"),
              normalize_players raw_data.players exclusions.player_name⟩ : NormData) ∧
            s.raw = raw_data
        · rw [if_pos hdup]
          simp [hdup]
        · rw [if_neg hdup]
          simp [hdup]
    · rw [if_neg hmap]
      cases hsnap : latest_snapshot db.snapshots db.next_id with
      | none =>
        simp only [hsnap, snapshot_unchanged]
        simp
      | some s =>
        simp only [hsnap, snapshot_unchanged]
        by_cases hdup : s.data =
            (⟨lower (info_getD raw_data.info "mapname" "N/A"),
              normalize_players raw_data.players exclusions.player_name⟩ : NormData) ∧
            s.raw = raw_data
        · rw [if_pos hdup]
          simp [hdup]
        · rw [if_neg hdup]
          simp [hdup]

theorem process_success_find (db : DB) (ip : String) (port : Int)
    (raw_data : RawPayload) (exclusions : Exclusions) (ts : Int)
    (h1 : ¬ server_excluded exclusions ip port)
    (h2 : info_getD raw_data.info "gametype" "N/A" ∉ exclusions.gametype) :
    ∃ r2, find_server (process_server_success db ip port raw_data exclusions ts) ip port =
      some r2 ∧ r2.id = success_server_id db ip port ∧ r2.consecutive_failures = 0 := by
  have hs : (process_server_success db ip port raw_data exclusions ts).servers =
      (upsert_server_success db ip port (info_getD raw_data.info "hostname" "N/A") ts
        (info_getD raw_data.info "active_mods" "N/A")
        (info_getD raw_data.info "gametype" "N/A")
        ⟨raw_data.info, normalize_players raw_data.players exclusions.player_name⟩).1.servers := by
    simp only [process_server_success, if_neg h1, if_neg h2]
    cases hf : find_server db ip port with
    | some r =>
      simp only [upsert_server_success, hf, apply_ite DB.servers, apply_ite DB.snapshots,
        ite_self]
      cases hsnap : latest_snapshot db.snapshots r.id <;>
        simp only [hsnap, apply_ite DB.servers, ite_self]
    | none =>
      simp only [upsert_server_success, hf, apply_ite DB.servers, apply_ite DB.snapshots,
        ite_self]
      cases hsnap : latest_snapshot db.snapshots db.next_id <;>
        simp only [hsnap, apply_ite DB.servers, ite_self]
  cases hf : find_server db ip port with
  | some r =>
    have hfind := find_server_upsert_success_some db ip port
      (info_getD raw_data.info "hostname" "N/A") ts
      (info_getD raw_data.info "active_mods" "N/A")
      (info_getD raw_data.info "gametype" "N/A")
      ⟨raw_data.info, normalize_players raw_data.players exclusions.player_name⟩ r hf
    refine ⟨({ r with
      hostname := some (info_getD raw_data.info "hostname" "N/A"),
      status := "online",
      last_seen := ts,
      consecutive_failures := 0,
      active_mod := some (info_getD raw_data.info "active_mods" "N/A"),
      gametype := some (info_getD raw_data.info "gametype" "N/A"),
      info := some ⟨raw_data.info,
        normalize_players raw_data.players exclusions.player_name⟩ }), ?_, ?_, rfl⟩
    · show find_server _ ip port = some _
      unfold find_server
      rw [hs]
      exact hfind
    · simp [success_server_id, hf]
  | none =>
    have hfind := find_server_upsert_success_none db ip port
      (info_getD raw_data.info "hostname" "N/A") ts
      (info_getD raw_data.info "active_mods" "N/A")
      (info_getD raw_data.info "gametype" "N/A")
      ⟨raw_data.info, normalize_players raw_data.players exclusions.player_name⟩ hf
    refine ⟨(⟨db.next_id, ip, port, some (info_getD raw_data.info "hostname" "N/A"),
      "online", ts, ts, 0, some (info_getD raw_data.info "active_mods" "N/A"),
      some (info_getD raw_data.info "gametype" "N/A"),
      some ⟨raw_data.info,
        normalize_players raw_data.players exclusions.player_name⟩⟩), ?_, ?_, rfl⟩
    · show find_server _ ip port = some _
      unfold find_server
      rw [hs]
      exact hfind
    · simp [success_server_id, hf]

theorem process_failure_none (db : DB) (ip : String) (port : Int) (ts threshold : Int)
    (hf : find_server db ip port = none) :
    find_server (process_server_failure db ip port ts threshold) ip port =
      some ⟨db.next_id, ip, port, none, "offline", ts, ts, 1, none, none, none⟩ ∧
    (process_server_failure db ip port ts threshold).sessions =
      (if (1 : Int) ≥ threshold
       then update_player_sessions db.sessions db.next_id
         (prior_players db db.next_id) [] ts
       else db.sessions) := by
  constructor
  · have hfind := find_server_upsert_failure_none db ip port ts threshold hf
    have hs : (process_server_failure db ip port ts threshold).servers =
        (upsert_server_failure db ip port ts threshold).1.servers := by
      simp only [process_server_failure, apply_ite DB.servers, ite_self]
    unfold find_server
    rw [hs]
    exact hfind
  · simp only [process_server_failure, upsert_server_failure, hf, prior_players,
      apply_ite DB.sessions]

theorem process_failure_some (db : DB) (ip : String) (port : Int) (ts threshold : Int)
    (r : ServerRow) (hf : find_server db ip port = some r) :
    find_server (process_server_failure db ip port ts threshold) ip port =
      some ({ r with
        last_seen := ts,
        consecutive_failures := r.consecutive_failures + 1,
        status := (if r.consecutive_failures + 1 ≥ threshold then "offline"
                   else r.status) }) ∧
    (process_server_failure db ip port ts threshold).sessions =
      (if r.consecutive_failures + 1 ≥ threshold
       then update_player_sessions db.sessions r.id (prior_players db r.id) [] ts
       else db.sessions) := by
  constructor
  · have hfind := find_server_upsert_failure_some db ip port ts threshold r hf
    have hs : (process_server_failure db ip port ts threshold).servers =
        (upsert_server_failure db ip port ts threshold).1.servers := by
      simp only [process_server_failure, apply_ite DB.servers, ite_self]
    unfold find_server
    rw [hs]
    exact hfind
  · simp only [process_server_failure, upsert_server_failure, hf, prior_players,
      apply_ite DB.sessions]

/-! ## Claim C1: the session-transition diff and its write order -/

/-- C1: the joined set is the lower-cased (non-empty) names of the
current list minus the previous ones and dually for the left set; the
transition equals the close write applied to the existing rows followed
by the appended insert rows (close before open); every open session of
this server for a left name appears closed with `leave_ts = timestamp`
in the result; every joined name yields an inserted row carrying the
raw current name, the normalized name, `join_ts = timestamp` and the
player's keyhash; and the at-most-one-open invariant is preserved,
given that open sessions of this server only exist for names present in
the previous snapshot. -/
theorem session_transition_close_before_open
    (sessions : List Session) (sid : Int) (prev curr : List Player) (ts : Int) :
    (∀ n, n ∈ joined_names prev curr ↔ n ∈ lower_names curr ∧ n ∉ lower_names prev) ∧
    (∀ n, n ∈ left_names prev curr ↔ n ∈ lower_names prev ∧ n ∉ lower_names curr) ∧
    update_player_sessions sessions sid prev curr ts =
      close_left sessions sid (left_names prev curr) ts ++
        new_session_rows sid (build_index curr) (joined_names prev curr) ts ∧
    (∀ s ∈ sessions, s.server_id = sid → s.player_name_norm ∈ left_names prev curr →
      s.leave_ts = none →
      { s with leave_ts := some ts } ∈ update_player_sessions sessions sid prev curr ts) ∧
    (∀ n ∈ joined_names prev curr, ∃ p raw,
      dict_get (build_index curr) n = some p ∧ p.name = some raw ∧ lower raw = n ∧
      (⟨sid, raw, n, ts, p.keyhash, none⟩ : Session) ∈
        update_player_sessions sessions sid prev curr ts) ∧
    (at_most_one_open sessions →
      (∀ s ∈ sessions, s.server_id = sid → s.leave_ts = none →
        s.player_name_norm ∈ lower_names prev) →
      at_most_one_open (update_player_sessions sessions sid prev curr ts)) := by
  refine ⟨mem_joined_names prev curr, mem_left_names prev curr, rfl, ?_, ?_, ?_⟩
  · intro s hs h1 h2 h3
    exact List.mem_append_left _ (close_left_mem sessions sid _ ts s hs ⟨h1, h2, h3⟩)
  · intro n hn
    have hk : n ∈ keys (build_index curr) := (List.mem_filter.mp hn).1
    obtain ⟨p, hp⟩ := dict_get_isSome_of_mem_keys hk
    have hkv := build_index_wf curr (n, p) (dict_get_mem hp)
    simp only at hkv
    obtain ⟨raw, hname, hraw, hlow⟩ := hkv
    refine ⟨p, raw, hp, hname, hlow, ?_⟩
    refine List.mem_append_right _ ?_
    refine List.mem_filterMap.mpr ⟨n, hn, ?_⟩
    simp [session_row_for, hp, hname, hraw]
  · intro hinv hopen sid2 n
    have hupd : update_player_sessions sessions sid prev curr ts =
        close_left sessions sid (left_names prev curr) ts ++
          new_session_rows sid (build_index curr) (joined_names prev curr) ts := rfl
    rw [hupd]
    unfold openCount
    rw [List.countP_append]
    by_cases hj : sid2 = sid ∧ n ∈ joined_names prev curr
    · obtain ⟨rfl, hn⟩ := hj
      have h0 : openCount sessions sid2 n = 0 := by
        unfold openCount
        rw [List.countP_eq_zero]
        intro s hs
        simp only [decide_eq_true_eq]
        rintro ⟨h1, h2, h3⟩
        have hmem := hopen s hs h1 h3
        rw [h2] at hmem
        exact ((mem_joined_names prev curr n).mp hn).2 hmem
      have hc := openCount_close_left_le sessions sid2 (left_names prev curr) ts sid2 n
      rw [h0] at hc
      have hnew := openCount_new_rows_le_one sid2 (build_index curr) ts
        (joined_names prev curr) (nodup_joined_names prev curr) sid2 n
      unfold openCount at hc hnew
      omega
    · have hz := openCount_new_rows_eq_zero sid (build_index curr)
        (joined_names prev curr) ts sid2 n (by tauto)
      have hc := openCount_close_left_le sessions sid (left_names prev curr) ts sid2 n
      have hi := hinv sid2 n
      unfold openCount at hz hc hi
      omega

/-- Witness for C1: Alice leaves (her open session gets closed at the
new timestamp) and Bob joins; the invariant instance at (1, "bob") is
at most one open row. -/
theorem session_transition_close_before_open_witness :
    (⟨1, "Alice", "alice", 0, none, some 5⟩ : Session) ∈
      update_player_sessions [⟨1, "Alice", "alice", 0, none, none⟩] 1
        [⟨some "Alice", none, 0, 0, 0, 0, 0⟩] [⟨some "Bob", some "kh", 0, 0, 0, 0, 0⟩] 5 ∧
    openCount (update_player_sessions [⟨1, "Alice", "alice", 0, none, none⟩] 1
        [⟨some "Alice", none, 0, 0, 0, 0, 0⟩] [⟨some "Bob", some "kh", 0, 0, 0, 0, 0⟩] 5)
      1 "bob" ≤ 1 :=
  ⟨(session_transition_close_before_open
      [⟨1, "Alice", "alice", 0, none, none⟩] 1
      [⟨some "Alice", none, 0, 0, 0, 0, 0⟩] [⟨some "Bob", some "kh", 0, 0, 0, 0, 0⟩]
      5).2.2.2.1 ⟨1, "Alice", "alice", 0, none, none⟩ (by decide) rfl (by decide) rfl,
   (session_transition_close_before_open
      [⟨1, "Alice", "alice", 0, none, none⟩] 1
      [⟨some "Alice", none, 0, 0, 0, 0, 0⟩] [⟨some "Bob", some "kh", 0, 0, 0, 0, 0⟩]
      5).2.2.2.2.2 (fun _ _ => List.countP_le_length _) (by decide) 1 "bob"⟩

/-! ## Claim C10: records with a missing or empty name are ignored -/

/-- C10: the session transition is unchanged when records with a
missing or empty name are removed from both input lists (they are
excluded from the diff index on both sides), and every inserted session
row carries a non-empty raw name and a non-empty normalized name. -/
theorem session_ignores_nameless_players :
    (∀ (sessions : List Session) (sid : Int) (prev curr : List Player) (ts : Int),
      update_player_sessions sessions sid prev curr ts =
        update_player_sessions sessions sid (prev.filter has_name)
          (curr.filter has_name) ts) ∧
    (∀ (sid : Int) (prev curr : List Player) (ts : Int) (r : Session),
      r ∈ new_session_rows sid (build_index curr) (joined_names prev curr) ts →
      r.player_name ≠ "" ∧ r.player_name_norm ≠ "") := by
  constructor
  · intro sessions sid prev curr ts
    unfold update_player_sessions joined_names left_names
    rw [build_index_filter_has_name prev, build_index_filter_has_name curr]
  · intro sid prev curr ts r hr
    rcases List.mem_filterMap.mp hr with ⟨n, hn, he⟩
    obtain ⟨_, h2, _, _, h5⟩ := session_row_for_props he
    refine ⟨h5, ?_⟩
    have hk : n ∈ keys (build_index curr) := (List.mem_filter.mp hn).1
    obtain ⟨p, hp⟩ := dict_get_isSome_of_mem_keys hk
    have hkv := build_index_wf curr (n, p) (dict_get_mem hp)
    simp only at hkv
    obtain ⟨raw, _, hraw, hlow⟩ := hkv
    rw [h2, ← hlow]
    exact lower_ne_empty raw hraw

/-- Witness for C10: the inserted row for Bob has non-empty names. -/
theorem session_ignores_nameless_players_witness :
    ("Bob" : String) ≠ "" ∧ ("bob" : String) ≠ "" :=
  session_ignores_nameless_players.2 1 [] [⟨some "Bob", some "kh", 0, 0, 0, 0, 0⟩] 5
    ⟨1, "Bob", "bob", 5, some "kh", none⟩ (by decide)

/-! ## Claim C4: the worker's next re-enqueue delay after a success -/

/-- C4: for every successful probe, the next re-enqueue delay is
`POLL_INTERVAL_EMPTY_S` when the parsed numplayers is 0; otherwise the
parsed remaining time plus 3 when that value is strictly between 0 and
`POLL_INTERVAL_ACTIVE_S + 5`; otherwise `POLL_INTERVAL_ACTIVE_S`. With
the defaults (180 s / 20 s) a probe with `numplayers=16,
roundtimeremain=7` yields a delay of 10 s. -/
theorem worker_next_delay_policy :
    (∀ (s : Settings) (info : Info), parsed_numplayers info = 0 →
      next_delay s info = s.POLL_INTERVAL_EMPTY_S) ∧
    (∀ (s : Settings) (info : Info), parsed_numplayers info ≠ 0 →
      0 < parsed_time_remaining info →
      parsed_time_remaining info < s.POLL_INTERVAL_ACTIVE_S + 5 →
      next_delay s info = parsed_time_remaining info + 3) ∧
    (∀ (s : Settings) (info : Info), parsed_numplayers info ≠ 0 →
      ¬(0 < parsed_time_remaining info ∧
        parsed_time_remaining info < s.POLL_INTERVAL_ACTIVE_S + 5) →
      next_delay s info = s.POLL_INTERVAL_ACTIVE_S) ∧
    default_settings.POLL_INTERVAL_EMPTY_S = 180 ∧
    default_settings.POLL_INTERVAL_ACTIVE_S = 20 ∧
    next_delay default_settings [("numplayers", "16"), ("roundtimeremain", "7")] = 10 := by
  refine ⟨?_, ?_, ?_, rfl, rfl, by decide⟩
  · intro s info h
    simp only [next_delay, h, if_pos rfl]
    simp
  · intro s info h0 h1 h2
    simp only [next_delay]
    rw [if_neg h0, if_pos ⟨h1, h2⟩]
  · intro s info h0 h1
    simp only [next_delay]
    rw [if_neg h0, if_neg h1]

/-- Witness for C4: each branch of the policy applied at a concrete
info map. -/
theorem worker_next_delay_policy_witness :
    next_delay default_settings [("numplayers", "0")] = 180 ∧
    next_delay default_settings [("numplayers", "5"), ("roundtime", "10")] = 13 ∧
    next_delay default_settings [("numplayers", "5"), ("roundtimeremain", "100")] = 20 :=
  ⟨worker_next_delay_policy.1 default_settings _ (by decide),
   worker_next_delay_policy.2.1 default_settings _ (by decide) (by decide) (by decide),
   worker_next_delay_policy.2.2.1 default_settings _ (by decide) (by decide)⟩

/-! ## Claim C5: defensive parsing of the delay-policy inputs -/

/-- Counterexample for C5: the code falls back to `roundtime` also when
`roundtimeremain` is present but empty (Python `or` tests truthiness,
not presence): with `roundtimeremain=""` and `roundtime="50"` the code
computes 50, while the claimed fall-back-only-when-missing rule
computes 0. -/
theorem time_remaining_fallback_counterexample :
    parsed_time_remaining [("roundtimeremain", ""), ("roundtime", "50")] = 50 ∧
    spec_time_remaining_missing_only [("roundtimeremain", ""), ("roundtime", "50")] = 0 := by
  exact ⟨by decide, by decide⟩

/-- C5 (amended): `numplayers` parses to 0 when missing, empty or
non-numeric; the dynamic-delay value uses `roundtimeremain` and falls
back to `roundtime` exactly when `roundtimeremain` is missing or empty
(falsy), and is 0 when both are missing. -/
theorem delay_inputs_defensive_parse :
    (∀ info : Info,
      (info_get info "numplayers" = none ∨ info_get info "numplayers" = some "" ∨
        (∃ s, info_get info "numplayers" = some s ∧ str_to_int s = none)) →
      parsed_numplayers info = 0) ∧
    (∀ info : Info,
      (info_get info "roundtimeremain" = none ∨
        info_get info "roundtimeremain" = some "") →
      parsed_time_remaining info = safe_int (info_get info "roundtime")) ∧
    (∀ (info : Info) (s : String), info_get info "roundtimeremain" = some s → s ≠ "" →
      parsed_time_remaining info = safe_int (some s)) ∧
    (∀ info : Info, info_get info "roundtimeremain" = none →
      info_get info "roundtime" = none → parsed_time_remaining info = 0) := by
  refine ⟨?_, ?_, ?_, ?_⟩
  · intro info h
    rcases h with h | h | ⟨s, hs, hn⟩
    · simp [parsed_numplayers, h, safe_int]
    · simp [parsed_numplayers, h, safe_int]
    · simp [parsed_numplayers, hs, safe_int, hn]
  · intro info h
    rcases h with h | h
    · simp [parsed_time_remaining, h, py_or]
    · simp [parsed_time_remaining, h, py_or]
  · intro info s hs hne
    simp [parsed_time_remaining, hs, py_or, hne]
  · intro info h1 h2
    simp [parsed_time_remaining, h1, h2, py_or, safe_int]

/-- Witness for C5 (amended): concrete info maps exercising all four
parts. -/
theorem delay_inputs_defensive_parse_witness :
    parsed_numplayers [("numplayers", "abc")] = 0 ∧
    parsed_time_remaining [("roundtimeremain", ""), ("roundtime", "50")] =
      safe_int (info_get [("roundtimeremain", ""), ("roundtime", "50")] "roundtime") ∧
    parsed_time_remaining [("roundtimeremain", "7")] = safe_int (some "7") ∧
    parsed_time_remaining [("mapname", "x")] = 0 :=
  ⟨delay_inputs_defensive_parse.1 _ (Or.inr (Or.inr ⟨"abc", by decide, by decide⟩)),
   delay_inputs_defensive_parse.2.1 _ (Or.inr (by decide)),
   delay_inputs_defensive_parse.2.2.1 _ "7" (by decide) (by decide),
   delay_inputs_defensive_parse.2.2.2 _ (by decide) (by decide)⟩

/-! ## Claim C7: master-list parsing and failure classification -/

/-- A master-list entry that fails the comprehension's filter: not an
array, or not of length 2. -/
def filtered_out (item : JVal) : Prop :=
  match item with
  | .arr l => l.length ≠ 2
  | _ => True

instance (item : JVal) : Decidable (filtered_out item) := by
  unfold filtered_out
  match item with
  | .arr l => exact inferInstanceAs (Decidable (l.length ≠ 2))
  | .str s => exact inferInstanceAs (Decidable True)
  | .num n => exact inferInstanceAs (Decidable True)
  | .null => exact inferInstanceAs (Decidable True)

/-- Counterexample for C7: a single 2-element entry with a non-numeric
port does not get dropped at the element level — `int` raises inside the
comprehension and the whole fetch returns the failure result `None`,
although no transport/HTTP error occurred. The claim would require
`some []` here. -/
theorem fetch_servers_nonnumeric_port_counterexample :
    fetch_servers (some [.arr [.str "1.2.3.4", .str "abc"]]) = none ∧
    fetch_servers (some [.str "junk"]) = some [] := by
  exact ⟨rfl, rfl⟩

/-- C7 (amended): entries that are not arrays or not of length 2 are
dropped silently while the remaining entries are parsed; a response in
which every entry is dropped yields the empty list (a success); but a
kept 2-element entry whose port is non-numeric aborts the parse and the
fetch returns the failure result `None`, as does a transport/HTTP
error. -/
theorem fetch_servers_parse_behavior :
    (∀ (bad : JVal) (rest : List JVal), filtered_out bad →
      parse_master_list (bad :: rest) = parse_master_list rest) ∧
    (∀ (a b : JVal) (n : Int) (rest : List JVal), py_int b = some n →
      parse_master_list (.arr [a, b] :: rest) =
        (parse_master_list rest).map (fun l => (a, n) :: l)) ∧
    (∀ data : List JVal, (∀ item ∈ data, filtered_out item) →
      parse_master_list data = some []) ∧
    (∀ (data : List JVal) (a b : JVal), .arr [a, b] ∈ data → py_int b = none →
      parse_master_list data = none) ∧
    fetch_servers none = none ∧
    (∀ data : List JVal, fetch_servers (some data) = parse_master_list data) := by
  have hdrop : ∀ (bad : JVal) (rest : List JVal), filtered_out bad →
      parse_master_list (bad :: rest) = parse_master_list rest := by
    intro bad rest h
    simp only [parse_master_list]
    congr 1
    refine List.filter_cons_of_neg ?_
    match bad with
    | .arr l =>
      simp only [filtered_out] at h
      simpa using h
    | .str s => simp
    | .num n => simp
    | .null => simp
  have hkeep : ∀ (a b : JVal) (rest : List JVal),
      parse_master_list (.arr [a, b] :: rest) =
        (match py_int b with
          | some n => (parse_master_list rest).map (fun l => (a, n) :: l)
          | none => none) := by
    intro a b rest
    simp only [parse_master_list]
    rw [List.filter_cons_of_pos (by simp)]
    rfl
  refine ⟨?_, ?_, ?_, ?_, rfl, fun _ => rfl⟩
  · exact hdrop
  · intro a b n rest hb
    rw [hkeep, hb]
  · intro data h
    induction data with
    | nil => rfl
    | cons item rest ih =>
      rw [hdrop item rest (h item (by simp))]
      exact ih (fun x hx => h x (by simp [hx]))
  · intro data a b hmem hb
    induction data with
    | nil => cases hmem
    | cons item rest ih =>
      rcases List.mem_cons.mp hmem with h | h
      · subst h
        rw [hkeep, hb]
      · have hrest := ih h
        match item with
        | .str s => rw [hdrop _ rest (by trivial)]; exact hrest
        | .num n => rw [hdrop _ rest (by trivial)]; exact hrest
        | .null => rw [hdrop _ rest (by trivial)]; exact hrest
        | .arr l =>
          by_cases hl : l.length = 2
          · match l, hl with
            | [x, y], _ =>
              rw [hkeep]
              cases hpy : py_int y with
              | some m => rw [hrest]; rfl
              | none => rfl
          · rw [hdrop _ rest (by simpa [filtered_out] using hl)]
            exact hrest

/-- Witness for C7 (amended): dropped junk entry, kept numeric entry,
all-junk response, and a poisoned entry at a concrete input. -/
theorem fetch_servers_parse_behavior_witness :
    parse_master_list [.null, .arr [.str "1.2.3.4", .str "14567"]] =
      parse_master_list [.arr [.str "1.2.3.4", .str "14567"]] ∧
    parse_master_list [.arr [.str "1.2.3.4", .str "14567"]] =
      (parse_master_list []).map (fun l => (JVal.str "1.2.3.4", (14567 : Int)) :: l) ∧
    parse_master_list [.null, .str "x"] = some [] ∧
    parse_master_list [.arr [.str "a", .null]] = none :=
  ⟨fetch_servers_parse_behavior.1 .null _ trivial,
   fetch_servers_parse_behavior.2.1 (.str "1.2.3.4") (.str "14567") 14567 [] (by decide),
   fetch_servers_parse_behavior.2.2.1 [.null, .str "x"] (by
     intro item h
     rcases List.mem_cons.mp h with h | h
     · subst h; trivial
     · rcases List.mem_cons.mp h with h | h
       · subst h; trivial
       · cases h),
   fetch_servers_parse_behavior.2.2.2.1 [.arr [.str "a", .null]] (.str "a") .null
     (by simp) rfl⟩

/-! ## Claim C8: querier fallback policy -/

/-- C8: every attempt uses the halved timeout against the given ip; the
primary attempt targets (ip, port); a primary success is returned with
no fallback; on primary failure with port ≠ 23000 exactly one fallback
attempt against (ip, 23000) is made and its outcome returned; on
primary failure with port = 23000 no further attempt is made and the
result is `None`. -/
theorem query_server_fallback_policy :
    ∀ (α : Type) (ip : String) (port : Int) (T : ℚ)
      (oracle : String → Int → ℚ → Option α),
    (∀ a ∈ (query_server ip port T oracle).2, a.ip = ip ∧ a.timeout = T / 2) ∧
    ((query_server ip port T oracle).2.head? = some ⟨ip, port, T / 2⟩) ∧
    (∀ s, oracle ip port (T / 2) = some s →
      query_server ip port T oracle = (some s, [⟨ip, port, T / 2⟩])) ∧
    (oracle ip port (T / 2) = none → port ≠ 23000 →
      query_server ip port T oracle =
        (oracle ip 23000 (T / 2), [⟨ip, port, T / 2⟩, ⟨ip, 23000, T / 2⟩])) ∧
    (oracle ip port (T / 2) = none → port = 23000 →
      query_server ip port T oracle = (none, [⟨ip, port, T / 2⟩])) := by
  intro α ip port T oracle
  refine ⟨?_, ?_, ?_, ?_, ?_⟩
  · intro a ha
    cases h : oracle ip port (T / 2) with
    | some s =>
      simp only [query_server, h, List.mem_singleton] at ha
      subst ha; exact ⟨rfl, rfl⟩
    | none =>
      by_cases hp : port = standard_query_port
      · subst hp
        simp only [query_server, h, ne_eq, not_true_eq_false, if_false,
          List.mem_singleton] at ha
        subst ha; exact ⟨rfl, rfl⟩
      · simp only [query_server, h, if_pos (by exact hp : port ≠ standard_query_port),
          List.mem_cons, List.mem_singleton, List.not_mem_nil, or_false] at ha
        rcases ha with ha | ha
        · subst ha; exact ⟨rfl, rfl⟩
        · subst ha; exact ⟨rfl, rfl⟩
  · cases h : oracle ip port (T / 2) with
    | some s => simp [query_server, h]
    | none =>
      by_cases hp : port = standard_query_port
      · subst hp
        simp [query_server, h]
      · simp [query_server, h, hp]
  · intro s h
    simp [query_server, h]
  · intro h hp
    have hp2 : port ≠ standard_query_port := by simpa [standard_query_port] using hp
    simp only [query_server, h, if_pos hp2]
    rfl
  · intro h hp
    have hp2 : ¬ port ≠ standard_query_port := by simp [standard_query_port, hp]
    simp only [query_server, h, if_neg hp2]

/-- Witness for C8: a concrete oracle succeeding only on port 23000,
probed from port 14567 (fallback hit) and from 23000 (failure with a
single attempt, using an all-failing oracle). -/
theorem query_server_fallback_policy_witness :
    query_server "1.2.3.4" 14567 4 (fun _ p _ => if p = 23000 then some 1 else none) =
      (some 1, [⟨"1.2.3.4", 14567, 2⟩, ⟨"1.2.3.4", 23000, 2⟩]) ∧
    query_server "1.2.3.4" 23000 4 (fun _ _ _ => (none : Option Nat)) =
      (none, [⟨"1.2.3.4", 23000, 2⟩]) := by
  constructor
  · have h := (query_server_fallback_policy Nat "1.2.3.4" 14567 4
      (fun _ p _ => if p = 23000 then some 1 else none)).2.2.2.1
      (by norm_num) (by norm_num)
    rw [h]; norm_num
  · have h := (query_server_fallback_policy Nat "1.2.3.4" 23000 4
      (fun _ _ _ => (none : Option Nat))).2.2.2.2 rfl rfl
    rw [h]; norm_num

/-! ## Claim C3: failure ingestion -/

/-- C3: a failed probe for an unknown server inserts an offline row
with one failure and `first_seen = last_seen = timestamp`; for a known
server it sets `last_seen`, increments the failure count, and sets the
status to offline exactly when the new count reaches the threshold; and
the open sessions of the server are closed (diff against the last
snapshot's players with an empty current list at the timestamp) if and
only if the resulting count is at least the threshold. -/
theorem failure_upsert_and_threshold_close
    (db : DB) (ip : String) (port : Int) (ts threshold : Int) :
    (find_server db ip port = none →
      find_server (process_server_failure db ip port ts threshold) ip port =
        some ⟨db.next_id, ip, port, none, "offline", ts, ts, 1, none, none, none⟩ ∧
      (process_server_failure db ip port ts threshold).sessions =
        (if (1 : Int) ≥ threshold
         then update_player_sessions db.sessions db.next_id
           (prior_players db db.next_id) [] ts
         else db.sessions)) ∧
    (∀ r, find_server db ip port = some r →
      find_server (process_server_failure db ip port ts threshold) ip port =
        some ({ r with
          last_seen := ts,
          consecutive_failures := r.consecutive_failures + 1,
          status := (if r.consecutive_failures + 1 ≥ threshold then "offline"
                     else r.status) }) ∧
      (process_server_failure db ip port ts threshold).sessions =
        (if r.consecutive_failures + 1 ≥ threshold
         then update_player_sessions db.sessions r.id (prior_players db r.id) [] ts
         else db.sessions)) :=
  ⟨process_failure_none db ip port ts threshold,
   fun r => process_failure_some db ip port ts threshold r⟩

/-- Witness for C3: a fresh server failing once (below the default
threshold 3: no session close), and a server at two prior failures
failing a third time (threshold reached: status offline, sessions run
through the empty-current diff). -/
theorem failure_upsert_and_threshold_close_witness :
    (find_server (process_server_failure ⟨[], [], [], [], 1⟩ "1.2.3.4" 14567 7 3)
        "1.2.3.4" 14567 =
      some ⟨1, "1.2.3.4", 14567, none, "offline", 7, 7, 1, none, none, none⟩ ∧
     (process_server_failure ⟨[], [], [], [], 1⟩ "1.2.3.4" 14567 7 3).sessions =
      (if (1 : Int) ≥ 3
       then update_player_sessions [] 1 (prior_players ⟨[], [], [], [], 1⟩ 1) [] 7
       else [])) ∧
    (find_server (process_server_failure
        ⟨[⟨1, "1.2.3.4", 14567, none, "online", 0, 0, 2, none, none, none⟩],
          [], [⟨1, "Bob", "bob", 0, none, none⟩], [], 2⟩ "1.2.3.4" 14567 9 3)
        "1.2.3.4" 14567 =
      some ⟨1, "1.2.3.4", 14567, none, "offline", 9, 0, 2 + 1, none, none, none⟩ ∧
     (process_server_failure
        ⟨[⟨1, "1.2.3.4", 14567, none, "online", 0, 0, 2, none, none, none⟩],
          [], [⟨1, "Bob", "bob", 0, none, none⟩], [], 2⟩ "1.2.3.4" 14567 9 3).sessions =
      (if (2 : Int) + 1 ≥ 3
       then update_player_sessions [⟨1, "Bob", "bob", 0, none, none⟩] 1
         (prior_players ⟨[⟨1, "1.2.3.4", 14567, none, "online", 0, 0, 2, none, none, none⟩],
           [], [⟨1, "Bob", "bob", 0, none, none⟩], [], 2⟩ 1) [] 9
       else [⟨1, "Bob", "bob", 0, none, none⟩])) :=
  ⟨(failure_upsert_and_threshold_close ⟨[], [], [], [], 1⟩ "1.2.3.4" 14567 7 3).1 rfl,
   (failure_upsert_and_threshold_close
      ⟨[⟨1, "1.2.3.4", 14567, none, "online", 0, 0, 2, none, none, none⟩],
        [], [⟨1, "Bob", "bob", 0, none, none⟩], [], 2⟩ "1.2.3.4" 14567 9 3).2
      ⟨1, "1.2.3.4", 14567, none, "online", 0, 0, 2, none, none, none⟩ rfl⟩

/-! ## Claim C9: the failure counter is monotone and reset on success -/

/-- C9: every failure ingestion increments the server's failure counter
(which is therefore monotone non-decreasing across any sequence of
failures, a fresh row starting at 1), and every success ingestion that
passes the server-id and gametype exclusion pre-checks resets it to 0. -/
theorem consecutive_failures_monotone_and_reset
    (db : DB) (ip : String) (port : Int) (ts threshold : Int)
    (raw_data : RawPayload) (exclusions : Exclusions) :
    (∀ r, find_server db ip port = some r →
      ∃ r2, find_server (process_server_failure db ip port ts threshold) ip port =
        some r2 ∧ r2.consecutive_failures = r.consecutive_failures + 1 ∧
        r.consecutive_failures ≤ r2.consecutive_failures) ∧
    (find_server db ip port = none →
      ∃ r2, find_server (process_server_failure db ip port ts threshold) ip port =
        some r2 ∧ r2.consecutive_failures = 1) ∧
    (¬ server_excluded exclusions ip port →
      info_getD raw_data.info "gametype" "N/A" ∉ exclusions.gametype →
      ∃ r2, find_server (process_server_success db ip port raw_data exclusions ts)
        ip port = some r2 ∧ r2.consecutive_failures = 0) := by
  refine ⟨?_, ?_, ?_⟩
  · intro r hf
    refine ⟨_, (process_failure_some db ip port ts threshold r hf).1, rfl, ?_⟩
    show r.consecutive_failures ≤ r.consecutive_failures + 1
    omega
  · intro hf
    exact ⟨_, (process_failure_none db ip port ts threshold hf).1, rfl⟩
  · intro h1 h2
    obtain ⟨r2, hfind, _, hcf⟩ := process_success_find db ip port raw_data exclusions ts h1 h2
    exact ⟨r2, hfind, hcf⟩

/-- Witness for C9: a row at 2 failures goes to 3 on failure; an
unknown server starts at 1; a successful probe resets the counter to 0. -/
theorem consecutive_failures_monotone_and_reset_witness :
    (∃ r2, find_server (process_server_failure
        ⟨[⟨1, "1.2.3.4", 14567, none, "online", 0, 0, 2, none, none, none⟩], [], [], [], 2⟩
        "1.2.3.4" 14567 9 3) "1.2.3.4" 14567 = some r2 ∧
      r2.consecutive_failures = 2 + 1 ∧ (2 : Int) ≤ r2.consecutive_failures) ∧
    (∃ r2, find_server (process_server_failure ⟨[], [], [], [], 1⟩ "1.2.3.4" 14567 9 3)
        "1.2.3.4" 14567 = some r2 ∧ r2.consecutive_failures = 1) ∧
    (∃ r2, find_server (process_server_success
        ⟨[⟨1, "1.2.3.4", 14567, none, "offline", 0, 0, 5, none, none, none⟩], [], [], [], 2⟩
        "1.2.3.4" 14567 ⟨[("hostname", "H")], []⟩ ⟨[], [], [], []⟩ 9)
        "1.2.3.4" 14567 = some r2 ∧ r2.consecutive_failures = 0) :=
  ⟨(consecutive_failures_monotone_and_reset
      ⟨[⟨1, "1.2.3.4", 14567, none, "online", 0, 0, 2, none, none, none⟩], [], [], [], 2⟩
      "1.2.3.4" 14567 9 3 ⟨[], []⟩ ⟨[], [], [], []⟩).1
      ⟨1, "1.2.3.4", 14567, none, "online", 0, 0, 2, none, none, none⟩ rfl,
   (consecutive_failures_monotone_and_reset ⟨[], [], [], [], 1⟩
      "1.2.3.4" 14567 9 3 ⟨[], []⟩ ⟨[], [], [], []⟩).2.1 rfl,
   (consecutive_failures_monotone_and_reset
      ⟨[⟨1, "1.2.3.4", 14567, none, "offline", 0, 0, 5, none, none, none⟩], [], [], [], 2⟩
      "1.2.3.4" 14567 9 3 ⟨[("hostname", "H")], []⟩ ⟨[], [], [], []⟩).2.2
      (by decide) (by decide)⟩

/-! ## Claim C2: unconditional session diff and snapshot deduplication -/

/-- C2: an accepted success ingestion always runs the session diff
against the prior snapshot's normalized players, and inserts a new
snapshot row exactly when the new normalized data or the new raw
payload differs from the prior snapshot (or no prior snapshot exists);
consequently a second, identical probe (under a monotone clock) inserts
no further snapshot, so two successive identical probes produce exactly
one snapshot total while the diff still ran. -/
theorem success_diff_always_snapshot_dedup
    (db : DB) (ip : String) (port : Int) (raw_data : RawPayload)
    (exclusions : Exclusions) (ts1 ts2 : Int)
    (h1 : ¬ server_excluded exclusions ip port)
    (h2 : info_getD raw_data.info "gametype" "N/A" ∉ exclusions.gametype)
    (hclock : ∀ s ∈ db.snapshots, s.timestamp ≤ ts1) :
    (process_server_success db ip port raw_data exclusions ts1).sessions =
      update_player_sessions db.sessions (success_server_id db ip port)
        (prior_players db (success_server_id db ip port))
        (success_normalized_players raw_data exclusions) ts1 ∧
    (process_server_success db ip port raw_data exclusions ts1).snapshots =
      (if snapshot_unchanged db (success_server_id db ip port)
          (success_normalized_data raw_data exclusions) raw_data
       then db.snapshots
       else db.snapshots ++ [⟨success_server_id db ip port, ts1,
         success_normalized_data raw_data exclusions, raw_data⟩]) ∧
    (process_server_success (process_server_success db ip port raw_data exclusions ts1)
        ip port raw_data exclusions ts2).snapshots =
      (process_server_success db ip port raw_data exclusions ts1).snapshots := by
  refine ⟨process_success_sessions db ip port raw_data exclusions ts1 h1 h2,
    process_success_snapshots db ip port raw_data exclusions ts1 h1 h2, ?_⟩
  have hsnap1 := process_success_snapshots db ip port raw_data exclusions ts1 h1 h2
  obtain ⟨r2, hfind, hid, _⟩ := process_success_find db ip port raw_data exclusions ts1 h1 h2
  have hsnap2 := process_success_snapshots
    (process_server_success db ip port raw_data exclusions ts1) ip port raw_data
    exclusions ts2 h1 h2
  rw [hsnap2]
  have hsid2 : success_server_id (process_server_success db ip port raw_data exclusions ts1)
      ip port = success_server_id db ip port := by
    simp only [success_server_id, hfind]
    exact hid
  rw [hsid2]
  cases hcond : snapshot_unchanged db (success_server_id db ip port)
      (success_normalized_data raw_data exclusions) raw_data with
  | true =>
    have hdb1 : (process_server_success db ip port raw_data exclusions ts1).snapshots =
        db.snapshots := by
      rw [hsnap1, if_pos hcond]
    have hsu : snapshot_unchanged
        (process_server_success db ip port raw_data exclusions ts1)
        (success_server_id db ip port)
        (success_normalized_data raw_data exclusions) raw_data = true := by
      unfold snapshot_unchanged at hcond ⊢
      rw [hdb1]
      exact hcond
    rw [if_pos hsu]
  | false =>
    have hdb1 : (process_server_success db ip port raw_data exclusions ts1).snapshots =
        db.snapshots ++ [⟨success_server_id db ip port, ts1,
          success_normalized_data raw_data exclusions, raw_data⟩] := by
      rw [hsnap1, if_neg (by simp [hcond])]
    have hlatest : latest_snapshot
        (process_server_success db ip port raw_data exclusions ts1).snapshots
        (success_server_id db ip port) =
        some ⟨success_server_id db ip port, ts1,
          success_normalized_data raw_data exclusions, raw_data⟩ := by
      rw [hdb1]
      exact latest_snapshot_append_one db.snapshots _ _ rfl (fun s hs => hclock s hs)
    have hsu : snapshot_unchanged
        (process_server_success db ip port raw_data exclusions ts1)
        (success_server_id db ip port)
        (success_normalized_data raw_data exclusions) raw_data = true := by
      unfold snapshot_unchanged
      rw [hlatest]
      simp
    rw [if_pos hsu]

/-- Witness for C2: from an empty database, probing the same payload
twice at timestamps 10 and 20 leaves the second call's snapshot table
identical to the first call's. -/
theorem success_diff_always_snapshot_dedup_witness :
    (process_server_success (process_server_success ⟨[], [], [], [], 1⟩ "1.2.3.4" 14567
        ⟨[("hostname", "H"), ("mapname", "Map1")], [⟨some "Bob", none, none, none, none,
          none, none⟩]⟩ ⟨[], [], [], []⟩ 10) "1.2.3.4" 14567
        ⟨[("hostname", "H"), ("mapname", "Map1")], [⟨some "Bob", none, none, none, none,
          none, none⟩]⟩ ⟨[], [], [], []⟩ 20).snapshots =
      (process_server_success ⟨[], [], [], [], 1⟩ "1.2.3.4" 14567
        ⟨[("hostname", "H"), ("mapname", "Map1")], [⟨some "Bob", none, none, none, none,
          none, none⟩]⟩ ⟨[], [], [], []⟩ 10).snapshots :=
  (success_diff_always_snapshot_dedup ⟨[], [], [], [], 1⟩ "1.2.3.4" 14567
    ⟨[("hostname", "H"), ("mapname", "Map1")], [⟨some "Bob", none, none, none, none,
      none, none⟩]⟩ ⟨[], [], [], []⟩ 10 20 (by decide) (by decide) (by decide)).2.2

/-! ## Claim C6: player-name exclusions and the diff inputs -/

theorem session_row_for_player {sid : Int} {idx : List (String × Player)} {ts : Int}
    {n : String} {r : Session} (h : session_row_for sid idx ts n = some r) :
    ∃ p, dict_get idx n = some p ∧ p.name = some r.player_name := by
  unfold session_row_for at h
  split at h
  · exact absurd h (by simp)
  · rename_i player hg
    split at h
    · exact absurd h (by simp)
    · rename_i raw hn
      split at h
      · exact absurd h (by simp)
      · simp only [Option.some.injEq] at h
        subst h
        exact ⟨player, hg, hn⟩

/-- Counterexample for C6: only the current list is filtered through
the `player_name` exclusions at diff time; the previous list is the
prior snapshot's stored players, which are not re-filtered. With "Bob"
excluded, a probe that still reports Bob runs the diff with Bob absent
from the current input but present in the previous one, so Bob's open
session is closed — an excluded name did close a session, contradicting
the claim. -/
theorem excluded_name_closes_session_counterexample :
    "Bob" ∈ (⟨[], ["Bob"], [], []⟩ : Exclusions).player_name ∧
    (process_server_success
      ⟨[⟨1, "9.9.9.9", 14567, none, "online", 0, 0, 0, none, none, none⟩],
       [⟨1, 0, ⟨"map1", [⟨some "Bob", none, 0, 0, 0, 0, 0⟩]⟩,
         ⟨[("mapname", "Map1")], [⟨some "Bob", none, none, none, none, none, none⟩]⟩⟩],
       [⟨1, "Bob", "bob", 0, none, none⟩], ["map1"], 2⟩
      "9.9.9.9" 14567
      ⟨[("mapname", "Map1")], [⟨some "Bob", none, none, none, none, none, none⟩]⟩
      ⟨[], ["Bob"], [], []⟩ 5).sessions =
      [⟨1, "Bob", "bob", 0, none, some 5⟩] := by
  exact ⟨by decide, by decide⟩

/-- C6 (amended): the current player list is filtered through the
`player_name` exclusions before the diff (at normalization), so an
excluded name never appears in the current diff input and never opens a
session; the previous diff input is the prior snapshot's stored player
list, which is not re-filtered, so a name excluded after that snapshot
was taken can still close its open session. -/
theorem exclusions_filter_current_input
    (raw : List RawPlayer) (excluded : List String) :
    (∀ p ∈ normalize_players raw excluded, ∀ nm ∈ excluded, p.name ≠ some nm) ∧
    (∀ (sid : Int) (joined : List String) (ts : Int) (r : Session),
      r ∈ new_session_rows sid (build_index (normalize_players raw excluded)) joined ts →
      r.player_name ∉ excluded) := by
  have hnames : ∀ p ∈ normalize_players raw excluded, ∀ nm ∈ excluded, p.name ≠ some nm := by
    intro p hp nm hnm hcon
    rcases List.mem_filterMap.mp hp with ⟨q, _, hq⟩
    by_cases hex : q.player.getD "N/A" ∈ excluded
    · rw [if_pos hex] at hq
      cases hq
    · rw [if_neg hex] at hq
      simp only [Option.some.injEq] at hq
      rw [← hq] at hcon
      simp only [Option.some.injEq] at hcon
      refine hex ?_
      rw [hcon]
      exact hnm
  refine ⟨hnames, ?_⟩
  intro sid joined ts r hr hcon
  rcases List.mem_filterMap.mp hr with ⟨n, _, he⟩
  obtain ⟨p, hget, hname⟩ := session_row_for_player he
  have hmem : p ∈ normalize_players raw excluded :=
    build_index_values _ (n, p) (dict_get_mem hget)
  exact hnames p hmem r.player_name hcon hname

/-- Witness for C6 (amended): with "Bob" excluded, Alice's normalized
record is not Bob, and the inserted row for Alice does not carry an
excluded name. -/
theorem exclusions_filter_current_input_witness :
    (⟨some "Alice", none, 0, 0, 0, 0, 0⟩ : Player).name ≠ some "Bob" ∧
    ("Alice" : String) ∉ ["Bob"] :=
  ⟨(exclusions_filter_current_input
      [⟨some "Bob", none, none, none, none, none, none⟩,
       ⟨some "Alice", none, none, none, none, none, none⟩] ["Bob"]).1
      ⟨some "Alice", none, 0, 0, 0, 0, 0⟩ (by decide) "Bob" (by decide),
   (exclusions_filter_current_input
      [⟨some "Bob", none, none, none, none, none, none⟩,
       ⟨some "Alice", none, none, none, none, none, none⟩] ["Bob"]).2
      1 ["alice"] 5 ⟨1, "Alice", "alice", 5, none, none⟩ (by decide)⟩

end BF1942
